import Mathlib

set_option maxRecDepth 8000
set_option linter.unnecessarySeqFocus false
set_option linter.unreachableTactic false
set_option linter.unusedTactic false

/-!
Shallow embedding of the guijs plugin lifecycle manager
(`packages/@guijs/server-core/src/connectors/plugins.js`) and command
registry (`packages/@guijs/server-core/src/schema/command/index.ts`),
together with proofs settling the specification claims about them.

Side-effecting calls to external collaborators (package manager, file
system, event bus, registries) are embedded as explicit effect traces;
collaborator behaviour the code merely consumes (manifest reading,
version resolution, module loading) is a parameter of the model.
-/

namespace GuijsSpec

/-- JavaScript values flowing through plugin action handlers. -/
inductive JsVal where
  | null
  | bool (b : Bool)
  | num (n : Int)
  | str (s : String)
deriving DecidableEq

/-- JavaScript exceptions: a TypeError raised by dereferencing `undefined`,
or an error thrown by plugin code. -/
inductive JsErr where
  | typeError
  | userError (msg : String)
deriving DecidableEq

/-- First-match lookup in an association list, mirroring `Map.get`
(keys stay unique in every map the code builds via `set`). -/
def lookupAssoc {α : Type} : List (String × α) → String → Option α
  | [], _ => none
  | (k', v) :: rest, k => if k' = k then some v else lookupAssoc rest k

/-- Mirror of `Map.set`: replace the value at an existing key in place,
otherwise append the new binding. -/
def setAssoc {α : Type} : List (String × α) → String → α → List (String × α)
  | [], k, v => [(k, v)]
  | (k', v') :: rest, k, v =>
    if k' = k then (k, v) :: rest else (k', v') :: setAssoc rest k v

/-! ## Plugin discovery (`list`, `findPlugins`, `getPlugins`, `findOne`) -/

/-- connectors/plugins.js: a plugin record produced by discovery
(`findPlugins` or the vuedesk block).  Plain records built by
`findPlugins` carry no `hidden` field; an absent field is falsy in JS, so
it is embedded as `hidden = false`. -/
structure Plugin where
  id : String
  versionRange : String
  official : Bool
  installed : Bool
  website : Option String
  baseDir : String
  hidden : Bool := false
deriving DecidableEq

def CLI_SERVICE : String := "@vue/cli-service"

def VUEDESK_BUILD_BUNDLE : String := "vuedesk-build-bundle"

/-- Shape of the `pkg.vuedesk` field of a manifest. -/
structure VuedeskCfg where
  version : String
  plugins : List String
deriving DecidableEq

/-- The slice of a package.json that `list` reads.  Dependency maps keep
JS object insertion order, hence association lists. -/
structure Manifest where
  dependencies : List (String × String) := []
  devDependencies : List (String × String) := []
  resolveFrom : Option String := none
  vuePluginsUi : Option (List String) := none
  vuedesk : Option VuedeskCfg := none
deriving DecidableEq

/-- External collaborators consumed by discovery: `folders.readPackage`,
`isPlugin` / `isOfficialPlugin` / `getPluginLink`
(@vue/cli-shared-utils), `fs.existsSync(dependencies.getPath ...)` and
`path.resolve`, plus the process-wide `cwd`. -/
structure PkgEnv where
  cwd : String
  readPackage : String → Manifest
  isPlugin : String → Bool
  isOfficialPlugin : String → Bool
  pkgInstalled : String → String → Bool
  getPluginLink : String → Option String
  resolvePath : String → String → String

/-- connectors/plugins.js `getLink`. -/
def getLink (env : PkgEnv) (id : String) : Option String :=
  if id = CLI_SERVICE then some "https://cli.vuejs.org/" else env.getPluginLink id

/-- connectors/plugins.js `findPlugins`: keep dependency entries naming a
plugin (or the cli service) and build a `Plugin` record for each. -/
def findPlugins (env : PkgEnv) (deps : List (String × String)) (file : String) :
    List Plugin :=
  (deps.filter (fun d => env.isPlugin d.1 || d.1 == CLI_SERVICE)).map
    (fun d =>
      { id := d.1
        versionRange := d.2
        official := env.isOfficialPlugin d.1 || d.1 == CLI_SERVICE
        installed := env.pkgInstalled d.1 file
        website := getLink env d.1
        baseDir := file })

/-- Remove the first element satisfying `p`, returning it with the rest
in original order (the `findIndex` / `splice` / `unshift` dance of
`list`). -/
def extractFirst {α : Type} (p : α → Bool) : List α → Option (α × List α)
  | [] => none
  | x :: xs =>
    if p x then some (x, xs)
    else (extractFirst p xs).map (fun r => (r.1, x :: r.2))

/-- Reorder the discovered list so the cli service (or the vuedesk bundle
substitute) comes first, as `list` does with `splice` + `unshift`. -/
def moveServiceFirst (plugins : List Plugin) : List Plugin :=
  match extractFirst (fun p => p.id == CLI_SERVICE || p.id == VUEDESK_BUILD_BUNDLE) plugins with
  | some (service, rest) => service :: rest
  | none => plugins

/-- The `pkgStore` entry recorded by `list` (resolved manifest plus its
context directory, after following `vuePlugins.resolveFrom`). -/
structure PkgEntry where
  pkgContext : String
  pkg : Manifest
deriving DecidableEq

/-- Manifest resolution at the top of `list`: read the package at `file`;
if it declares `vuePlugins.resolveFrom`, re-resolve and re-read from
there. -/
def readPkgEntry (env : PkgEnv) (file : String) : PkgEntry :=
  let pkg := env.readPackage file
  match pkg.resolveFrom with
  | some rf =>
    let ctx := env.resolvePath env.cwd rf
    { pkgContext := ctx, pkg := env.readPackage ctx }
  | none => { pkgContext := env.cwd, pkg }

/-- The synthetic hidden bundle member `@vue/cli-plugin-<id>` produced for
each `pkg.vuedesk.plugins` entry. -/
def vuedeskMember (vd : VuedeskCfg) (file : String) (pid : String) : Plugin :=
  { id := "@vue/cli-plugin-" ++ pid
    versionRange := vd.version
    official := true
    installed := true
    website := none
    baseDir := file
    hidden := true }

/-- The synthetic `vuedesk-build-bundle` pseudo-plugin. -/
def vuedeskBundle (vd : VuedeskCfg) (file : String) : Plugin :=
  { id := VUEDESK_BUILD_BUNDLE
    versionRange := vd.version
    official := true
    installed := true
    website := none
    baseDir := file }

/-- The full plugin list `list` computes for a workspace before the
dedup check: devDependencies, then dependencies, then the vuedesk
bundle and its hidden members, with the service moved to the front. -/
def computePlugins (env : PkgEnv) (file : String) : List Plugin :=
  let entry := readPkgEntry env file
  let pkg := entry.pkg
  let base := findPlugins env pkg.devDependencies file ++ findPlugins env pkg.dependencies file
  let withVuedesk :=
    match pkg.vuedesk with
    | some vd => base ++ (vuedeskBundle vd file :: vd.plugins.map (vuedeskMember vd file))
    | none => base
  moveServiceFirst withVuedesk

/-- connectors/plugins.js `getPlugins`: the store entry, `[]` fallback. -/
def getPlugins (store : List (String × List Plugin)) (file : String) : List Plugin :=
  (lookupAssoc store file).getD []

/-- connectors/plugins.js `findOne`. -/
def findOne (store : List (String × List Plugin)) (id : String) (file : String) :
    Option Plugin :=
  (getPlugins store file).find? (fun p => p.id == id)

/-- Options object of `list` with its JS default values. -/
structure ListOptions where
  resetApi : Bool := true
  lightApi : Bool := false
  autoLoadApi : Bool := true

/-- Outcome of one `list` call: the value returned to the caller, the
plugin store after the call, the `pkgStore` entry written, and whether
the call wrote the plugin store or awaited `resetPluginApi`. -/
structure ListResult where
  returned : List Plugin
  store : List (String × List Plugin)
  pkgEntry : PkgEntry
  wroteStore : Bool
  calledReset : Bool
deriving DecidableEq

/-- connectors/plugins.js `list`: compute the plugin list; if it is
deep-equal to the stored one, return the stored list unchanged (note:
unfiltered); otherwise store it, reset the plugin api when requested (or
when auto-loading finds no instance), and return the non-hidden
plugins.  `hasApi` stands for `pluginApiInstances.has(file)`. -/
def list (env : PkgEnv) (store : List (String × List Plugin)) (hasApi : Bool)
    (file : String) (opts : ListOptions) : ListResult :=
  let entry := readPkgEntry env file
  let plugins := computePlugins env file
  let oldPlugins := getPlugins store file
  if plugins = oldPlugins then
    { returned := oldPlugins
      store := store
      pkgEntry := entry
      wroteStore := false
      calledReset := false }
  else
    { returned := plugins.filter (fun p => !p.hidden)
      store := setAssoc store file plugins
      pkgEntry := entry
      wroteStore := true
      calledReset := opts.resetApi || (opts.autoLoadApi && !hasApi) }

/-! ## Plugin API runtime (`getApi`, `callHook`, `callAction`) -/

/-- Modelled from the spec: the `PluginApi` class (api/PluginApi.js is not
included under src).  Per §3 it is the per-workspace extension context
owning the loaded hook handlers keyed by hook id, the map from action id
to ordered handler callbacks, and the contributed views, widget
definitions, client addons and IPC handlers, with a back-reference to
the active project.  Only the members read by the code under src are
modelled; hook handlers are opaque tokens, action handlers are fallible
functions on JS values. -/
structure PluginApi where
  projectId : String
  views : List String
  ipcHandlers : List Nat
  clientAddons : List String
  widgetDefs : List String
  hooks : List (String × List Nat)
  actions : List (String × List (JsVal → Except JsErr JsVal))

/-- connectors/plugins.js `getApi`: plain map lookup. -/
def getApi (instances : List (String × PluginApi)) (folder : String) : Option PluginApi :=
  lookupAssoc instances folder

/-- One hook-handler invocation: the handler token with the arguments it
received. -/
abbrev HookCall := Nat × List JsVal

/-- connectors/plugins.js `callHook`: no instance means a silent no-op;
with an instance, `pluginApi.hooks[id]` is dereferenced (a missing entry
makes `fns.length` throw) and every handler runs in order, uncaught. -/
def callHook (api? : Option PluginApi) (id : String) (args : List JsVal) :
    Except JsErr (List HookCall) :=
  match api? with
  | none => .ok []
  | some api =>
    match lookupAssoc api.hooks id with
    | none => .error .typeError
    | some fns => .ok (fns.map (fun fn => (fn, args)))

/-- Events `callAction` publishes on the pubsub bus. -/
inductive ActionEvent where
  | called (id : String) (params : JsVal)
  | resolved (id : String) (params : JsVal)
      (results : List JsVal) (errors : List (Option JsErr))
deriving DecidableEq

/-- The record `callAction` resolves with. -/
structure ActionResult where
  id : String
  params : JsVal
  results : List JsVal
  errors : List (Option JsErr)
deriving DecidableEq

/-- The handler loop of `callAction`: each callback runs in order with
`result`/`error` initialised to `null`; a throw is caught into `error`,
a return lands in `result`, and both are pushed. -/
def runHandlers (hs : List (JsVal → Except JsErr JsVal)) (params : JsVal) :
    List JsVal × List (Option JsErr) :=
  match hs with
  | [] => ([], [])
  | cb :: rest =>
    let step : JsVal × Option JsErr :=
      match cb params with
      | .ok v => (v, none)
      | .error e => (JsVal.null, some e)
    let tail := runHandlers rest params
    (step.1 :: tail.1, step.2 :: tail.2)

/-- connectors/plugins.js `callAction`: publish the "called" event, then
dereference the instance's action map (`pluginApi.actions.get(id)`
throws a TypeError when no instance is registered), run the handler
loop, publish "resolved" and return the accumulated record. -/
def callAction (api? : Option PluginApi) (id : String) (params : JsVal) :
    List ActionEvent × Except JsErr ActionResult :=
  match api? with
  | none => ([ActionEvent.called id params], .error .typeError)
  | some api =>
    let pair :=
      match lookupAssoc api.actions id with
      | some hs => runHandlers hs params
      | none => ([], [])
    ([ActionEvent.called id params,
      ActionEvent.resolved id params pair.1 pair.2],
     .ok { id := id, params := params, results := pair.1, errors := pair.2 })

/-! ## Plugin API Reset Protocol (`resetPluginApi`) -/

/-- The project record as read through the projects connector. -/
structure Project where
  id : String
deriving DecidableEq

/-- External collaborators of `resetPluginApi`: the projects connector
(`findByPath`, `getType`, `getLast`), the currently open view, and the
whole module-loading phase (`new PluginApi` plus every `runPluginApi`
call populating it — PluginApi.js and the loaded plugin modules are
outside src, so the populated context is a parameter). -/
structure ResetEnv where
  findByPath : String → Option Project
  getType : Project → String
  buildApi : List Plugin → String → Project → Bool → PluginApi
  currentView : Option String

/-- Observable side effects of one `resetPluginApi` run, in order. -/
inductive ResetEffect where
  | removeView (id : String)
  | ipcOff (tok : Nat)
  | unWatchAll (projectId : String)
  | clearClientAddons
  | clearSuggestions
  | resetWidgets
  | runPlugin (id : String)
  | addClientAddon (id : String)
  | addView (id : String)
  | registerWidget (id : String)
  | hookProjectOpen (newProjectId : String)
  | hookPluginReload (projectId : String)
  | reopenView (id : String)
  | loadWidgets
deriving DecidableEq

/-- The process-wide mutable state `resetPluginApi` touches. -/
structure ResetState where
  instances : List (String × PluginApi)
  pluginsStore : List (String × List Plugin)
  pkgStore : List (String × PkgEntry)

/-- connectors/plugins.js `resetPluginApi`.  Step 1 tears down the prior
instance's side registrations (the map entry itself is never deleted);
after the deferred tick, a missing project or a non-vue project type
resolves `false`; otherwise a freshly populated context replaces the map
entry, contributions are applied, and the lifecycle hooks fire (recorded
as effects — the spec's §4.3 hook step).  A missing `pkgStore` entry
makes the destructuring on the success path throw. -/
def resetPluginApi (env : ResetEnv) (st : ResetState) (file : String) (lightApi : Bool) :
    Except JsErr (Bool × ResetState × List ResetEffect) :=
  let prior := lookupAssoc st.instances file
  let projectId? : Option String := prior.map (fun api => api.projectId)
  let teardown : List ResetEffect :=
    (match prior with
     | some api =>
       api.views.map ResetEffect.removeView ++ api.ipcHandlers.map ResetEffect.ipcOff
     | none => []) ++
    (if !lightApi then
       (match projectId? with
        | some pid => [ResetEffect.unWatchAll pid]
        | none => []) ++
       [ResetEffect.clearClientAddons, ResetEffect.clearSuggestions,
        ResetEffect.resetWidgets]
     else [])
  match env.findByPath file with
  | none => .ok (false, st, teardown)
  | some project =>
    let plugins := getPlugins st.pluginsStore file
    if env.getType project != "vue" then .ok (false, st, teardown)
    else
      let api := env.buildApi plugins file project lightApi
      let st' := { st with instances := setAssoc st.instances file api }
      let runs := ResetEffect.runPlugin "@guijs/builtin-plugin" ::
        plugins.map (fun p => ResetEffect.runPlugin p.id)
      match lookupAssoc st.pkgStore file with
      | none => .error .typeError
      | some entry =>
        let localRuns :=
          match entry.pkg.vuePluginsUi with
          | some files => files.map (fun _ => ResetEffect.runPlugin entry.pkgContext)
          | none => []
        let applied :=
          api.clientAddons.map ResetEffect.addClientAddon ++
          api.views.map ResetEffect.addView ++
          api.widgetDefs.map ResetEffect.registerWidget
        if lightApi then
          .ok (true, st', teardown ++ runs ++ localRuns ++ applied)
        else
          let hookEff :=
            if projectId? != some project.id then
              [ResetEffect.hookProjectOpen project.id]
            else
              ResetEffect.hookPluginReload project.id ::
              (match env.currentView with
               | some v => [ResetEffect.reopenView v]
               | none => [])
          .ok (true, st',
            teardown ++ runs ++ localRuns ++ applied ++ hookEff ++
            [ResetEffect.loadWidgets])

/-! ## Lifecycle operations (install / installLocal / uninstall / invoke /
update / updateAll), embedded as ordered effect traces -/

def PROGRESS_ID : String := "plugin-installation"

/-- Observable steps of a lifecycle operation, in execution order. -/
inductive PmEffect where
  | progressWrap (pid : String)
  | setProgress (status : String)
  | setCurrentPlugin (id : Option String)
  | setStep (step : Option String)
  | mockInstall (id : String)
  | pmInstall (wd : String) (spec : String)
  | mockUninstall (id : String)
  | pmUninstall (wd : String) (spec : String)
  | pmUpdate (wd : String) (spec : String)
  | initPrompts (id : String)
  | notified (title : String)
  | cwdSet (dir : String)
  | writePkg (file : String)
  | fsCopyPlain (src : String) (dst : String)
  | fsRemove (target : String)
  | fsCopy (src : String) (dst : String) (excludeDeps : Bool)
  | clearWebpackModule
  | execaInvoke (id : String)
  | runPluginApiEffect (id : String)
  | logAdded
  | resetApi (file : String)
  | invalidated (id : String)
deriving DecidableEq

/-- External inputs of install / installLocal / uninstall / runInvoke:
the process cwd, the debug flag, the official-plugin check, generator
resolution, and for installLocal the current project path and the name
read from the local package.json. -/
structure LifecycleEnv where
  cwd : String
  debugMode : Bool
  isOfficialPlugin : String → Bool
  hasGenerator : String → Bool
  currentProjectPath : String
  localPkgName : String

/-- connectors/plugins.js `install`: wrapped in the shared
`plugin-installation` progress channel; debug-mode official plugins get
the mock manifest edit, everything else the real package manager. -/
def install (env : LifecycleEnv) (id : String) : List PmEffect :=
  [PmEffect.progressWrap PROGRESS_ID,
   PmEffect.setProgress "plugin-install",
   PmEffect.setCurrentPlugin (some id),
   PmEffect.setStep (some "install")] ++
  (if env.debugMode && env.isOfficialPlugin id then [PmEffect.mockInstall id]
   else [PmEffect.pmInstall env.cwd id]) ++
  [PmEffect.initPrompts id,
   PmEffect.setStep (some "config"),
   PmEffect.notified "Plugin installed"]

/-- connectors/plugins.js `installLocal`: repoints the cwd to the current
project before entering the same progress channel as `install`, edits
the manifest to a `file:` dependency, copies the package into
node_modules and continues like `install`. -/
def installLocal (env : LifecycleEnv) (folder : String) : List PmEffect :=
  let id := env.localPkgName
  [PmEffect.cwdSet env.currentProjectPath,
   PmEffect.progressWrap PROGRESS_ID,
   PmEffect.setProgress "plugin-install",
   PmEffect.setCurrentPlugin (some id),
   PmEffect.setStep (some "install"),
   PmEffect.writePkg env.currentProjectPath,
   PmEffect.fsCopyPlain folder (env.currentProjectPath ++ "/node_modules/" ++ id),
   PmEffect.initPrompts id,
   PmEffect.setStep (some "config"),
   PmEffect.notified "Plugin installed"]

/-- connectors/plugins.js `uninstall`. -/
def uninstall (env : LifecycleEnv) (id : String) : List PmEffect :=
  [PmEffect.progressWrap PROGRESS_ID,
   PmEffect.setProgress "plugin-uninstall",
   PmEffect.setStep (some "uninstall"),
   PmEffect.setCurrentPlugin (some id)] ++
  (if env.debugMode && env.isOfficialPlugin id then [PmEffect.mockUninstall id]
   else [PmEffect.pmUninstall env.cwd id]) ++
  [PmEffect.setCurrentPlugin none,
   PmEffect.setStep none,
   PmEffect.notified "Plugin uninstalled"]

/-- connectors/plugins.js `runInvoke`: clears the cached webpack config,
spawns the scaffolding command when the plugin declares a generator,
reloads only that plugin's api module, and moves the step to `diff`. -/
def runInvoke (env : LifecycleEnv) (id : String) : List PmEffect :=
  [PmEffect.progressWrap PROGRESS_ID,
   PmEffect.setProgress "plugin-invoke",
   PmEffect.clearWebpackModule,
   PmEffect.setCurrentPlugin (some id)] ++
  (if env.hasGenerator id then [PmEffect.execaInvoke id] else []) ++
  [PmEffect.runPluginApiEffect id,
   PmEffect.setStep (some "diff"),
   PmEffect.notified "Plugin invoked successfully"]

/-- Result of `dependencies.getVersion` (the dependency-version
collaborator, outside src): current and wanted versions plus the local
path of a locally linked package, when there is one. -/
structure VersionInfo where
  current : String
  wanted : String
  localPath : Option String
deriving DecidableEq

/-- External inputs of `update` / `updateAll`: the process cwd, the
plugin store, the dependency-version collaborator, path resolution, the
discovery environment for the nested `list` call, and whether a plugin
api instance exists for the cwd. -/
structure UpdateEnv where
  cwd : String
  store : List (String × List Plugin)
  getVersion : Option Plugin → VersionInfo
  resolvePath : String → String → String
  pkgEnv : PkgEnv
  hasApi : Bool

/-- Whether one character list starts with another. -/
def startsWithSeq : List Char → List Char → Bool
  | [], _ => true
  | _ :: _, [] => false
  | x :: xs, y :: ys => x == y && startsWithSeq xs ys

/-- Whether `needle` occurs contiguously inside `hay` (substring match,
standing for an unanchored regex test). -/
def hasInfixSeq (needle : List Char) : List Char → Bool
  | [] => needle.isEmpty
  | y :: ys => startsWithSeq needle (y :: ys) || hasInfixSeq needle ys

/-- Files excluded from the `updateLocalPackage` copy: the filter regex
is `.git` on a full resync and `(.git|node_modules)` on a partial one. -/
def copyExcluded (excludeDeps : Bool) (file : String) : Bool :=
  hasInfixSeq ".git".data file.data ||
  (excludeDeps && hasInfixSeq "node_modules".data file.data)

/-- connectors/plugins.js `updateLocalPackage`: a full resync removes the
destination first and recopies excluding only version-control metadata;
a partial resync copies over, additionally excluding node_modules.  The
`excludeDeps` flag on the copy effect is interpreted by
`copyExcluded`. -/
def updateLocalPackage (resolve : String → String → String)
    (id : String) (wd : String) (localPath : String) (full : Bool) : List PmEffect :=
  let src := resolve wd localPath
  let dst := resolve wd ("node_modules/" ++ id)
  (if full then [PmEffect.fsRemove dst] else []) ++
  [PmEffect.fsCopy src dst (!full)]

/-- connectors/plugins.js `update`: wrapped in the `plugin-update`
progress channel; a locally linked plugin gets the differential file
copy, a registry plugin the package manager; then log, notify, a full
reset and cache invalidation, returning the refreshed record. -/
def update (env : UpdateEnv) (id : String) (full : Bool) :
    List PmEffect × Option Plugin :=
  let plugin := findOne env.store id env.cwd
  let vi := env.getVersion plugin
  let mid :=
    match vi.localPath with
    | some lp => updateLocalPackage env.resolvePath id env.cwd lp full
    | none => [PmEffect.pmUpdate env.cwd id]
  ([PmEffect.progressWrap "plugin-update",
    PmEffect.setProgress "plugin-update",
    PmEffect.setCurrentPlugin (some id)] ++ mid ++
   [PmEffect.logAdded,
    PmEffect.notified "Plugin updated",
    PmEffect.resetApi env.cwd,
    PmEffect.invalidated id,
    PmEffect.setCurrentPlugin none],
   findOne env.store id env.cwd)

/-- connectors/plugins.js `updateAll`: wrapped in the `plugins-update`
progress channel; re-runs discovery without a forced reset, collects the
outdated plugins (invalidating each), and either notifies that nothing
is to update or batches one package-manager update and resets. -/
def updateAll (env : UpdateEnv) : List PmEffect × List Plugin :=
  let r := list env.pkgEnv env.store env.hasApi env.cwd { resetApi := false }
  let plugins := r.returned
  let updated := plugins.filter
    (fun p => (env.getVersion (some p)).current != (env.getVersion (some p)).wanted)
  if updated.isEmpty then
    ([PmEffect.progressWrap "plugins-update",
      PmEffect.notified "No updates available"], [])
  else
    ([PmEffect.progressWrap "plugins-update"] ++
     updated.map (fun p => PmEffect.invalidated p.id) ++
     [PmEffect.setProgress "plugins-update",
      PmEffect.pmUpdate env.cwd (String.intercalate " " (updated.map (fun p => p.id))),
      PmEffect.notified "Plugins updated",
      PmEffect.resetApi env.cwd],
     updated)

/-- The wrap id under which an effect trace runs: the id of its first
`progress.wrap` effect. -/
def wrapId (effs : List PmEffect) : Option String :=
  effs.findSome? (fun e =>
    match e with
    | PmEffect.progressWrap pid => some pid
    | _ => none)

/-- The six lifecycle operations. -/
inductive LifecycleOp where
  | install | installLocal | uninstall | update | updateAll | invoke
deriving DecidableEq

/-- The progress id each operation's `progress.wrap` call names in the
source. -/
def progressIdOf : LifecycleOp → String
  | .install => PROGRESS_ID
  | .installLocal => PROGRESS_ID
  | .uninstall => PROGRESS_ID
  | .invoke => PROGRESS_ID
  | .update => "plugin-update"
  | .updateAll => "plugins-update"

/-- Modelled from the spec: the progress channel (`progress.wrap`,
connectors/progress.js, not included under src) serializes tasks per
progress id — a second task wrapped with the same id while one is in
flight queues or rejects, and tasks wrapped with different ids are
independent.  Two lifecycle operations are therefore mutually exclusive
precisely when they name the same progress id. -/
def mutuallyExclusive (op₁ op₂ : LifecycleOp) : Bool :=
  progressIdOf op₁ == progressIdOf op₂

/-! ## Command registry (`schema/command/index.ts`) -/

/-- The six command types of the schema. -/
inductive CommandType where
  | help | action | project | package | config | script
deriving DecidableEq

/-- A registered command.  `lastUsed` carries `getTime()` of the usage
timestamp; the handler body lives outside the registry, so only its
presence is modelled (its invocation is recorded as an effect). -/
structure Command where
  id : String
  type : CommandType
  label : String
  description : Option String := none
  hidden : Bool := false
  lastUsed : Option Nat := none
  hasHandler : Bool := false
deriving DecidableEq

/-- One document of a search index: the ref (command id) and the indexed
label field. -/
structure IndexDoc where
  ref : String
  label : String
deriving DecidableEq

/-- The registry state: the ordered command list, the id map, the
per-type indexes and the global index. -/
structure CmdState where
  commands : List Command
  commandsMap : List (String × Command)
  indexes : CommandType → List IndexDoc
  globalIndex : List IndexDoc

/-- The empty registry. -/
def initCmdState : CmdState :=
  { commands := []
    commandsMap := []
    indexes := fun _ => []
    globalIndex := [] }

/-- schema/command/index.ts `addCommand`: append to the list, set the id
map, and index non-hidden commands in their type index and in the
global one. -/
def addCommand (st : CmdState) (cmd : Command) : CmdState :=
  { commands := st.commands ++ [cmd]
    commandsMap := setAssoc st.commandsMap cmd.id cmd
    indexes := fun t =>
      if cmd.hidden then st.indexes t
      else if t = cmd.type then st.indexes t ++ [{ ref := cmd.id, label := cmd.label }]
      else st.indexes t
    globalIndex :=
      if cmd.hidden then st.globalIndex
      else st.globalIndex ++ [{ ref := cmd.id, label := cmd.label }] }

/-- The registry state after a sequence of `addCommand` calls. -/
def buildState (cmds : List Command) : CmdState :=
  cmds.foldl addCommand initCmdState

/-- The `typeWords` prefix table. -/
def typeWords : Char → Option CommandType
  | '?' => some CommandType.help
  | '>' => some CommandType.action
  | '<' => some CommandType.project
  | '&' => some CommandType.package
  | '~' => some CommandType.config
  | '$' => some CommandType.script
  | _ => none

/-- schema/command/index.ts `getSeachType` (sic): the anchored
single-character regex inspects only the first character. -/
def getSeachType (text : List Char) : Option CommandType :=
  match text with
  | c :: _ => typeWords c
  | [] => none

/-- Modelled from the spec: the elasticlunr index search (external
library).  Per §4.8 a non-empty query is matched fuzzily against the
`label` field of the selected index only; the match criterion is
abstracted as a predicate and the result is the matching documents. -/
def idxSearch (matchQ : List Char → String → Bool) (text : List Char)
    (docs : List IndexDoc) : List IndexDoc :=
  docs.filter (fun d => matchQ text d.label)

/-- The JS sort comparator of `getRecentCommands`: descending by
timestamp when both are set, a timestamped command before an
untimestamped one, `0` (keep order) otherwise. -/
def cmdCompare (a b : Command) : Int :=
  match a.lastUsed, b.lastUsed with
  | some ta, some tb => (tb : Int) - (ta : Int)
  | some _, none => -1
  | none, some _ => 1
  | none, none => 0

/-- Stable insertion step of a comparator sort: the new element goes
after every element comparing ≤ 0 against it, which is where a stable
`Array.prototype.sort` leaves it. -/
def insertJs {α : Type} (c : α → α → Int) (x : α) : List α → List α
  | [] => [x]
  | y :: ys => if c y x ≤ 0 then y :: insertJs c x ys else x :: y :: ys

/-- Left-to-right stable insertion sort, the behaviour of the (stable)
JS `Array.prototype.sort` for a consistent comparator. -/
def jsSortAux {α : Type} (c : α → α → Int) : List α → List α → List α
  | acc, [] => acc
  | acc, x :: xs => jsSortAux c (insertJs c x acc) xs

/-- Stable comparator sort. -/
def jsSort {α : Type} (c : α → α → Int) (l : List α) : List α :=
  jsSortAux c [] l

/-- The filter step of `getRecentCommands`: drop hidden commands, and in
the unscoped case also help-type commands. -/
def recentFilter (cmds : List Command) (ty : Option CommandType) : List Command :=
  match ty with
  | some t => cmds.filter (fun c => !c.hidden && c.type == t)
  | none => cmds.filter (fun c => !c.hidden && !(c.type == CommandType.help))

/-- schema/command/index.ts `getRecentCommands`: filter, stable sort by
the recency comparator, first twenty. -/
def getRecentCommands (cmds : List Command) (ty : Option CommandType) : List Command :=
  (jsSort cmdCompare (recentFilter cmds ty)).take 20

/-- schema/command/index.ts `searchCommands`: a recognized leading
symbol selects the type index and is stripped; an empty remaining query
yields the recent list; otherwise the index is searched and refs are
mapped back through the id map (`Map.get`, hence `Option`). -/
def searchCommands (matchQ : List Char → String → Bool) (st : CmdState)
    (text : List Char) : List (Option Command) :=
  let ty := getSeachType text
  let pair : List IndexDoc × List Char :=
    match ty with
    | some t => (st.indexes t, text.drop 1)
    | none => (st.globalIndex, text)
  if pair.2.isEmpty then (getRecentCommands st.commands ty).map some
  else (idxSearch matchQ pair.2 pair.1).map
    (fun d => lookupAssoc st.commandsMap d.ref)

/-- Observable effects of `runCommand`. -/
inductive RunEffect where
  | warned (id : String)
  | handlerInvoked (id : String)
  | published (cmd : Command) (clientId : String)
deriving DecidableEq

/-- schema/command/index.ts `runCommand`: unknown ids are logged and the
call returns null; otherwise the declared handler (if any) runs with no
arguments and the `commandRan` event is published together with the
requesting client's id, returning the command. -/
def runCommand (cmds : List Command) (clientId : String) (id : String) :
    Option Command × List RunEffect :=
  match cmds.find? (fun c => c.id == id) with
  | none => (none, [RunEffect.warned id])
  | some command =>
    (some command,
     (if command.hasHandler then [RunEffect.handlerInvoked command.id] else []) ++
     [RunEffect.published command clientId])

/-! ## Boolean helpers used to state claims in executable form -/

/-- Boolean pairwise check. -/
def pairwiseB {α : Type} (r : α → α → Bool) : List α → Bool
  | [] => true
  | x :: xs => xs.all (r x) && pairwiseB r xs

/-- Recency rank order used to state sortedness of the recent list:
descending timestamps, any timestamped command before any untimestamped
one. -/
def rankLeB (a b : Command) : Bool :=
  match a.lastUsed, b.lastUsed with
  | some ta, some tb => tb ≤ ta
  | some _, none => true
  | none, some _ => false
  | none, none => true

/-! ## Concrete instances used by witnesses and counterexamples -/

/-- Two action handlers: the first throws, the second returns 5. -/
def exHandlers : List (JsVal → Except JsErr JsVal) :=
  [fun _ => Except.error (JsErr.userError "boom"), fun _ => Except.ok (JsVal.num 5)]

/-- A runtime instance with one action owning the two demo handlers. -/
def exActionApi : PluginApi :=
  { projectId := "proj1"
    views := []
    ipcHandlers := []
    clientAddons := []
    widgetDefs := []
    hooks := []
    actions := [("act", exHandlers)] }

/-- A hidden command that declares a handler. -/
def demoHiddenCmd : Command :=
  { id := "h1", type := CommandType.action, label := "Hidden"
    hidden := true, hasHandler := true }

/-! ## Lemmas about the handler loop -/

theorem runHandlers_eq (hs : List (JsVal → Except JsErr JsVal)) (params : JsVal) :
    runHandlers hs params =
      (hs.map (fun cb => match cb params with | .ok v => v | .error _ => JsVal.null),
       hs.map (fun cb => match cb params with | .ok _ => none | .error e => some e)) := by
  induction hs with
  | nil => rfl
  | cons cb rest ih =>
    simp only [runHandlers, ih, List.map_cons]
    cases cb params <;> rfl

theorem runHandlers_aligned (hs : List (JsVal → Except JsErr JsVal)) (params : JsVal) :
    ((runHandlers hs params).1.zip (runHandlers hs params).2).all
      (fun p => !(p.2.isSome && !(p.1 == JsVal.null))) = true := by
  induction hs with
  | nil => rfl
  | cons cb rest ih =>
    simp only [runHandlers, List.zip_cons_cons, List.all_cons, ih, Bool.and_true]
    cases cb params <;> rfl

/-- C4: for an action id with registered handlers, `callAction` runs every
handler sequentially in registration order, catching each failure
independently; the returned `results` and `errors` arrays have the
handlers' length and are position-aligned, with `null` on one side
wherever the other side carries a value; events "called" and "resolved"
frame the dispatch.  In particular, handlers [throw, return 5] yield
results [null, 5] and errors [error, null]. -/
theorem callAction_spec (api : PluginApi) (id : String) (params : JsVal)
    (hs : List (JsVal → Except JsErr JsVal))
    (h : lookupAssoc api.actions id = some hs) :
    callAction (some api) id params =
      ([ActionEvent.called id params,
        ActionEvent.resolved id params
          (hs.map (fun cb => match cb params with | .ok v => v | .error _ => JsVal.null))
          (hs.map (fun cb => match cb params with | .ok _ => none | .error e => some e))],
       .ok { id := id, params := params
             results := hs.map (fun cb => match cb params with | .ok v => v | .error _ => JsVal.null)
             errors := hs.map (fun cb => match cb params with | .ok _ => none | .error e => some e) }) ∧
    (hs.map (fun cb => match cb params with | .ok v => v | .error _ => JsVal.null)).length = hs.length ∧
    (hs.map (fun cb => match cb params with | .ok _ => none | .error e => some e)).length = hs.length ∧
    (((hs.map (fun cb => match cb params with | .ok v => v | .error _ => JsVal.null)).zip
        (hs.map (fun cb => match cb params with | .ok _ => none | .error e => some e))).all
      (fun p => !(p.2.isSome && !(p.1 == JsVal.null))) = true) ∧
    callAction (some exActionApi) "act" JsVal.null =
      ([ActionEvent.called "act" JsVal.null,
        ActionEvent.resolved "act" JsVal.null [JsVal.null, JsVal.num 5]
          [some (JsErr.userError "boom"), none]],
       .ok { id := "act", params := JsVal.null
             results := [JsVal.null, JsVal.num 5]
             errors := [some (JsErr.userError "boom"), none] }) := by
  refine ⟨?_, by simp, by simp, ?_, rfl⟩
  · simp only [callAction, h, runHandlers_eq]
  · have := runHandlers_aligned hs params
    rwa [runHandlers_eq] at this

/-- Witness for C4 at the concrete two-handler instance. -/
theorem callAction_spec_witness :
    lookupAssoc exActionApi.actions "act" = some exHandlers ∧
    callAction (some exActionApi) "act" JsVal.null =
      ([ActionEvent.called "act" JsVal.null,
        ActionEvent.resolved "act" JsVal.null [JsVal.null, JsVal.num 5]
          [some (JsErr.userError "boom"), none]],
       .ok { id := "act", params := JsVal.null
             results := [JsVal.null, JsVal.num 5]
             errors := [some (JsErr.userError "boom"), none] }) :=
  ⟨rfl, (callAction_spec exActionApi "act" JsVal.null exHandlers rfl).2.2.2.2⟩

/-- C9: `runCommand` on an absent id logs a warning and returns null; on a
present id it invokes the declared handler with no arguments (recorded
as an effect), publishes the command-ran event paired with the client's
identity, and returns the command record — also when it is hidden. -/
theorem runCommand_spec (cmds : List Command) (clientId id : String) :
    (cmds.find? (fun c => c.id == id) = none →
      runCommand cmds clientId id = (none, [RunEffect.warned id])) ∧
    (∀ c, cmds.find? (fun c => c.id == id) = some c →
      runCommand cmds clientId id =
        (some c,
         (if c.hasHandler then [RunEffect.handlerInvoked c.id] else []) ++
         [RunEffect.published c clientId])) := by
  constructor
  · intro h; simp [runCommand, h]
  · intro c h; simp [runCommand, h]

/-- Witness for C9: a hidden command with a handler is run and returned;
an unknown id yields a warning and null. -/
theorem runCommand_spec_witness :
    ([demoHiddenCmd].find? (fun c => c.id == "h1") = some demoHiddenCmd) ∧
    demoHiddenCmd.hidden = true ∧
    runCommand [demoHiddenCmd] "client1" "h1" =
      (some demoHiddenCmd,
       [RunEffect.handlerInvoked "h1", RunEffect.published demoHiddenCmd "client1"]) ∧
    runCommand [demoHiddenCmd] "client1" "nope" = (none, [RunEffect.warned "nope"]) := by
  refine ⟨by decide, rfl, ?_, ?_⟩
  · exact (runCommand_spec [demoHiddenCmd] "client1" "h1").2 demoHiddenCmd (by decide)
  · exact (runCommand_spec [demoHiddenCmd] "client1" "nope").1 (by decide)

/-- C10: for a workspace with no registered runtime instance,
`callAction` publishes the "called" event and then rejects with the
TypeError raised by dereferencing the absent instance's action map — no
"resolved" event — while `callHook` silently no-ops. -/
theorem callAction_no_instance (instances : List (String × PluginApi))
    (file id : String) (params : JsVal) (args : List JsVal)
    (h : getApi instances file = none) :
    callAction (getApi instances file) id params =
      ([ActionEvent.called id params], .error JsErr.typeError) ∧
    callHook (getApi instances file) id args = .ok [] := by
  rw [h]; exact ⟨rfl, rfl⟩

/-- Witness for C10 at the empty instance map. -/
theorem callAction_no_instance_witness :
    getApi ([] : List (String × PluginApi)) "/w" = none ∧
    callAction (getApi ([] : List (String × PluginApi)) "/w") "act" JsVal.null =
      ([ActionEvent.called "act" JsVal.null], .error JsErr.typeError) :=
  ⟨rfl, (callAction_no_instance [] "/w" "act" JsVal.null [] rfl).1⟩

/-! ## C7 / C8: update behaviour and progress-channel ids -/

/-- Whether an effect is a package-manager update invocation. -/
def isPmUpdate : PmEffect → Bool
  | PmEffect.pmUpdate _ _ => true
  | _ => false

/-- Whether an effect touches the file system (copy or remove). -/
def isFileOp : PmEffect → Bool
  | PmEffect.fsCopy _ _ _ => true
  | PmEffect.fsCopyPlain _ _ => true
  | PmEffect.fsRemove _ => true
  | _ => false

/-- Whether an effect removes a path. -/
def isFsRemove : PmEffect → Bool
  | PmEffect.fsRemove _ => true
  | _ => false

/-- C7: `update` for a plugin whose resolved version carries a local path
performs the differential file copy — full resync removes the
destination and copies excluding only version-control metadata, partial
resync copies over excluding version-control and dependency-tree
metadata (the `copyExcluded` interpretation of the copy's flag) — and
never invokes the package manager; for a registry plugin it delegates to
the package manager and performs no file operation. -/
theorem update_local_vs_registry (env : UpdateEnv) (id : String) (full : Bool) :
    (∀ lp, (env.getVersion (findOne env.store id env.cwd)).localPath = some lp →
      ((update env id full).1.all (fun e => !isPmUpdate e) = true) ∧
      PmEffect.fsCopy (env.resolvePath env.cwd lp)
        (env.resolvePath env.cwd ("node_modules/" ++ id)) (!full) ∈ (update env id full).1 ∧
      (full = true →
        PmEffect.fsRemove (env.resolvePath env.cwd ("node_modules/" ++ id)) ∈ (update env id full).1) ∧
      (full = false → (update env id full).1.all (fun e => !isFsRemove e) = true)) ∧
    ((env.getVersion (findOne env.store id env.cwd)).localPath = none →
      ((update env id full).1.all (fun e => !isFileOp e) = true) ∧
      PmEffect.pmUpdate env.cwd id ∈ (update env id full).1) := by
  constructor
  · intro lp hlp
    refine ⟨?_, ?_, ?_, ?_⟩
    · cases full <;>
        simp [update, hlp, updateLocalPackage, isPmUpdate, List.all_append]
    · cases full <;> simp [update, hlp, updateLocalPackage]
    · intro hf; subst hf; simp [update, hlp, updateLocalPackage]
    · intro hf; subst hf
      simp [update, hlp, updateLocalPackage, isFsRemove, List.all_append]
  · intro hnone
    constructor
    · simp [update, hnone, isFileOp, List.all_append]
    · simp [update, hnone]

/-- A discovery environment with an empty manifest, used by concrete
update environments. -/
def emptyPkgEnv : PkgEnv :=
  { cwd := "/w"
    readPackage := fun _ => {}
    isPlugin := fun _ => false
    isOfficialPlugin := fun _ => false
    pkgInstalled := fun _ _ => false
    getPluginLink := fun _ => none
    resolvePath := fun a b => a ++ "/" ++ b }

/-- An update environment resolving the plugin to a locally linked
package. -/
def localUpdateEnv : UpdateEnv :=
  { cwd := "/w"
    store := []
    getVersion := fun _ => { current := "1.0.0", wanted := "1.1.0", localPath := some "../lib" }
    resolvePath := fun a b => a ++ "/" ++ b
    pkgEnv := emptyPkgEnv
    hasApi := true }

/-- An update environment resolving the plugin to a registry install. -/
def registryUpdateEnv : UpdateEnv :=
  { cwd := "/w"
    store := []
    getVersion := fun _ => { current := "1.0.0", wanted := "1.1.0", localPath := none }
    resolvePath := fun a b => a ++ "/" ++ b
    pkgEnv := emptyPkgEnv
    hasApi := true }

/-- Witness for C7: both branches at concrete environments. -/
theorem update_local_vs_registry_witness :
    ((localUpdateEnv.getVersion (findOne localUpdateEnv.store "p" localUpdateEnv.cwd)).localPath =
      some "../lib") ∧
    ((update localUpdateEnv "p" true).1.all (fun e => !isPmUpdate e) = true) ∧
    ((registryUpdateEnv.getVersion (findOne registryUpdateEnv.store "p" registryUpdateEnv.cwd)).localPath =
      none) ∧
    ((update registryUpdateEnv "p" true).1.all (fun e => !isFileOp e) = true) := by
  refine ⟨rfl, ?_, rfl, ?_⟩
  · exact ((update_local_vs_registry localUpdateEnv "p" true).1 "../lib" rfl).1
  · exact ((update_local_vs_registry registryUpdateEnv "p" true).2 rfl).1

/-- A lifecycle environment for the progress-id theorems. -/
def demoLifecycleEnv : LifecycleEnv :=
  { cwd := "/w"
    debugMode := false
    isOfficialPlugin := fun _ => false
    hasGenerator := fun _ => false
    currentProjectPath := "/proj"
    localPkgName := "local-pkg" }

/-- Counterexample to C8 as stated: `update` and `install` do not share a
progress id — `update` wraps `plugin-update` while `install` wraps
`plugin-installation`. -/
theorem progress_id_counterexample :
    wrapId (update localUpdateEnv "p" true).1 = some "plugin-update" ∧
    wrapId (install demoLifecycleEnv "p") = some "plugin-installation" ∧
    ("plugin-update" : String) ≠ "plugin-installation" :=
  ⟨rfl, rfl, by decide⟩

/-- C8 (amended): install, installLocal, uninstall and invoke are wrapped
in the shared `plugin-installation` progress id, while `update` runs
under `plugin-update` and `updateAll` under `plugins-update`; under the
spec-modelled per-id serialization of the progress channel, mutual
exclusion therefore holds within each id group but not between `update`
(or `updateAll`) and the installation-family operations. -/
theorem progress_id_amended (e : LifecycleEnv) (u : UpdateEnv)
    (id folder : String) (full : Bool) :
    wrapId (install e id) = some "plugin-installation" ∧
    wrapId (installLocal e folder) = some "plugin-installation" ∧
    wrapId (uninstall e id) = some "plugin-installation" ∧
    wrapId (runInvoke e id) = some "plugin-installation" ∧
    wrapId (update u id full).1 = some "plugin-update" ∧
    wrapId (updateAll u).1 = some "plugins-update" ∧
    mutuallyExclusive LifecycleOp.install LifecycleOp.installLocal = true ∧
    mutuallyExclusive LifecycleOp.install LifecycleOp.uninstall = true ∧
    mutuallyExclusive LifecycleOp.install LifecycleOp.invoke = true ∧
    mutuallyExclusive LifecycleOp.install LifecycleOp.update = false ∧
    mutuallyExclusive LifecycleOp.update LifecycleOp.updateAll = false := by
  refine ⟨rfl, rfl, rfl, rfl, rfl, ?_, by decide, by decide, by decide, by decide, by decide⟩
  unfold updateAll
  dsimp only
  split <;> rfl

/-! ## C2 / C3: discovery return paths and idempotence -/

theorem lookupAssoc_setAssoc {α : Type} (l : List (String × α)) (k : String) (v : α) :
    lookupAssoc (setAssoc l k v) k = some v := by
  induction l with
  | nil => simp [setAssoc, lookupAssoc]
  | cons p rest ih =>
    obtain ⟨k', v'⟩ := p
    by_cases h : k' = k <;> simp [setAssoc, lookupAssoc, h, ih]

theorem getPlugins_setAssoc (store : List (String × List Plugin)) (file : String)
    (plugins : List Plugin) :
    getPlugins (setAssoc store file plugins) file = plugins := by
  simp [getPlugins, lookupAssoc_setAssoc]

/-- An environment whose manifest declares a vuedesk bundle, producing a
hidden synthetic plugin. -/
def vdEnv : PkgEnv :=
  { cwd := "/w"
    readPackage := fun _ => { vuedesk := some { version := "1.0.0", plugins := ["babel"] } }
    isPlugin := fun _ => false
    isOfficialPlugin := fun _ => false
    pkgInstalled := fun _ _ => false
    getPluginLink := fun _ => none
    resolvePath := fun a b => a ++ "/" ++ b }

/-- First discovery call on the vuedesk workspace (store write path). -/
def vdFirst : ListResult := list vdEnv [] false "/w" {}

/-- Second discovery call, with the manifest unchanged (cached path). -/
def vdSecond : ListResult := list vdEnv vdFirst.store false "/w" {}

/-- Counterexample to C2 as stated: on the structurally-equal path `list`
returns the stored list itself, which contains the hidden vuedesk member
— the filtered first call did not. -/
theorem list_hidden_counterexample :
    vdSecond.returned.any (fun p => p.hidden) = true ∧
    vdFirst.returned.any (fun p => p.hidden) = false := by
  constructor <;> decide

/-- Behaviour of `list` on the structurally-equal (cached) path. -/
theorem list_eq_cached (env : PkgEnv) (store : List (String × List Plugin))
    (hasApi : Bool) (file : String) (opts : ListOptions)
    (h : computePlugins env file = getPlugins store file) :
    list env store hasApi file opts =
      { returned := getPlugins store file
        store := store
        pkgEntry := readPkgEntry env file
        wroteStore := false
        calledReset := false } := by
  simp only [list]
  rw [if_pos h]

/-- Behaviour of `list` on the changed (write) path. -/
theorem list_eq_write (env : PkgEnv) (store : List (String × List Plugin))
    (hasApi : Bool) (file : String) (opts : ListOptions)
    (h : computePlugins env file ≠ getPlugins store file) :
    list env store hasApi file opts =
      { returned := (computePlugins env file).filter (fun p => !p.hidden)
        store := setAssoc store file (computePlugins env file)
        pkgEntry := readPkgEntry env file
        wroteStore := true
        calledReset := opts.resetApi || (opts.autoLoadApi && !hasApi) } := by
  simp only [list]
  rw [if_neg h]

/-- C2 (amended): on the path where the computed list differs from the
stored one, `list` returns only non-hidden plugins while the full
computed list — hidden entries included — is written to the Plugin
Store; on the structurally-equal path it returns the stored list itself,
unfiltered. -/
theorem list_hidden_amended (env : PkgEnv) (store : List (String × List Plugin))
    (hasApi : Bool) (file : String) (opts : ListOptions) :
    ((list env store hasApi file opts).wroteStore = true →
      (list env store hasApi file opts).returned.all (fun p => !p.hidden) = true) ∧
    ((list env store hasApi file opts).wroteStore = true →
      (computePlugins env file).all
        (fun p => (getPlugins (list env store hasApi file opts).store file).contains p) = true) ∧
    ((list env store hasApi file opts).wroteStore = false →
      (list env store hasApi file opts).returned = getPlugins store file) := by
  by_cases h : computePlugins env file = getPlugins store file
  · rw [list_eq_cached env store hasApi file opts h]
    exact ⟨fun hfalse => by simp at hfalse, fun hfalse => by simp at hfalse, fun _ => rfl⟩
  · rw [list_eq_write env store hasApi file opts h]
    refine ⟨fun _ => ?_, fun _ => ?_, fun htrue => by simp at htrue⟩
    · simp only [List.all_eq_true, List.mem_filter]
      exact fun p hp => hp.2
    · simp only [List.all_eq_true]
      intro p hp
      have : getPlugins (setAssoc store file (computePlugins env file)) file =
          computePlugins env file := getPlugins_setAssoc store file _
      rw [this]
      exact List.elem_eq_true_of_mem hp

/-- Witness for C2 at the vuedesk environment's write path. -/
theorem list_hidden_amended_witness :
    vdFirst.wroteStore = true ∧
    vdFirst.returned.all (fun p => !p.hidden) = true ∧
    (computePlugins vdEnv "/w").all (fun p => (getPlugins vdFirst.store "/w").contains p) = true := by
  refine ⟨by decide, ?_, ?_⟩
  · exact (list_hidden_amended vdEnv [] false "/w" {}).1 (by decide)
  · exact (list_hidden_amended vdEnv [] false "/w" {}).2.1 (by decide)

/-- Counterexample to C3 as stated: the second call with an unchanged
manifest writes nothing and triggers no reset, but its returned list is
not element-wise equal to the first call's (the hidden entry
reappears). -/
theorem list_idempotent_counterexample :
    vdSecond.wroteStore = false ∧
    vdSecond.calledReset = false ∧
    vdSecond.returned ≠ vdFirst.returned := by
  refine ⟨by decide, by decide, by decide⟩

/-- C3 (amended): a second discovery call with an unchanged manifest
performs no Plugin Store write and triggers no Reset, and returns the
stored (unfiltered) list; that list is element-wise equal to the first
call's result exactly when the computed plugin list has no hidden entry
(and the first call wrote). -/
theorem list_idempotent_amended (env : PkgEnv) (store : List (String × List Plugin))
    (hasApi hasApi' : Bool) (file : String) (opts opts' : ListOptions) :
    (list env (list env store hasApi file opts).store hasApi' file opts').wroteStore = false ∧
    (list env (list env store hasApi file opts).store hasApi' file opts').calledReset = false ∧
    (list env (list env store hasApi file opts).store hasApi' file opts').returned =
      getPlugins (list env store hasApi file opts).store file ∧
    ((computePlugins env file).all (fun p => !p.hidden) = true →
      (list env store hasApi file opts).wroteStore = true →
      (list env (list env store hasApi file opts).store hasApi' file opts').returned =
        (list env store hasApi file opts).returned) := by
  by_cases h : computePlugins env file = getPlugins store file
  · rw [list_eq_cached env store hasApi file opts h]
    dsimp only
    rw [list_eq_cached env store hasApi' file opts' h]
    exact ⟨rfl, rfl, rfl, fun _ hw => by simp at hw⟩
  · rw [list_eq_write env store hasApi file opts h]
    dsimp only
    have hagain : computePlugins env file =
        getPlugins (setAssoc store file (computePlugins env file)) file :=
      (getPlugins_setAssoc store file _).symm
    rw [list_eq_cached env (setAssoc store file (computePlugins env file)) hasApi' file opts' hagain]
    dsimp only
    rw [getPlugins_setAssoc]
    refine ⟨rfl, rfl, rfl, fun hall _ => ?_⟩
    exact (List.filter_eq_self.mpr (fun p hp => by
      simpa using (List.all_eq_true.mp hall p hp))).symm

/-- An environment whose manifest yields a single visible plugin. -/
def plainEnv : PkgEnv :=
  { cwd := "/w"
    readPackage := fun _ => { dependencies := [("vue-cli-plugin-demo", "^1.0.0")] }
    isPlugin := fun s => s == "vue-cli-plugin-demo"
    isOfficialPlugin := fun _ => false
    pkgInstalled := fun _ _ => true
    getPluginLink := fun _ => none
    resolvePath := fun a b => a ++ "/" ++ b }

/-- First discovery call on the plain workspace. -/
def plainFirst : ListResult := list plainEnv [] false "/w" {}

/-- Witness for C3 on a manifest without hidden plugins: the second call
writes nothing, resets nothing, and returns the first call's list. -/
theorem list_idempotent_amended_witness :
    (computePlugins plainEnv "/w").all (fun p => !p.hidden) = true ∧
    plainFirst.wroteStore = true ∧
    (list plainEnv plainFirst.store false "/w" {}).wroteStore = false ∧
    (list plainEnv plainFirst.store false "/w" {}).calledReset = false ∧
    (list plainEnv plainFirst.store false "/w" {}).returned = plainFirst.returned := by
  refine ⟨by decide, by decide, ?_, ?_, ?_⟩
  · exact (list_idempotent_amended plainEnv [] false false "/w" {} {}).1
  · exact (list_idempotent_amended plainEnv [] false false "/w" {} {}).2.1
  · exact (list_idempotent_amended plainEnv [] false false "/w" {} {}).2.2.2
      (by decide) (by decide)

/-! ## C1: the reset protocol's false paths -/

/-- The resolved boolean of a reset run, when it did not throw. -/
def resetResolved : Except JsErr (Bool × ResetState × List ResetEffect) → Option Bool
  | .ok r => some r.1
  | .error _ => none

/-- Whether an instance is registered for `file` after a reset run. -/
def resetInstanceAt (file : String) :
    Except JsErr (Bool × ResetState × List ResetEffect) → Bool
  | .ok r => (lookupAssoc r.2.1.instances file).isSome
  | .error _ => false

/-- A prior runtime instance with one view and one IPC handler. -/
def demoApi : PluginApi :=
  { projectId := "proj1"
    views := ["v1"]
    ipcHandlers := [7]
    clientAddons := []
    widgetDefs := []
    hooks := []
    actions := [] }

/-- A state in which `/w` already has a registered instance. -/
def demoResetState : ResetState :=
  { instances := [("/w", demoApi)]
    pluginsStore := []
    pkgStore := [] }

/-- An environment in which no project resolves for any path. -/
def demoResetEnv : ResetEnv :=
  { findByPath := fun _ => none
    getType := fun _ => "vue"
    buildApi := fun _ _ _ _ => demoApi
    currentView := none }

/-- Counterexample to C1 as stated: with an instance registered for `/w`
and no resolvable project, `resetPluginApi` resolves `false` yet the
prior instance is still registered afterwards. -/
theorem reset_false_counterexample :
    (lookupAssoc demoResetState.instances "/w").isSome = true ∧
    resetResolved (resetPluginApi demoResetEnv demoResetState "/w" false) = some false ∧
    resetInstanceAt "/w" (resetPluginApi demoResetEnv demoResetState "/w" false) = true :=
  ⟨rfl, rfl, rfl⟩

/-- C1 (amended): whenever `resetPluginApi` resolves `false` — no project
for the path, or a non-vue project type — the instance map is left
exactly as it was: a workspace that had no runtime instance still has
none, but a previously registered instance remains registered (its side
registrations torn down), since the map entry is never deleted. -/
theorem reset_false_amended (env : ResetEnv) (st : ResetState) (file : String)
    (light : Bool) (st' : ResetState) (eff : List ResetEffect)
    (h : resetPluginApi env st file light = .ok (false, st', eff)) :
    st'.instances = st.instances := by
  unfold resetPluginApi at h
  dsimp only at h
  split at h
  · simp only [Except.ok.injEq, Prod.mk.injEq] at h
    rw [← h.2.1]
  · split at h
    · simp only [Except.ok.injEq, Prod.mk.injEq] at h
      rw [← h.2.1]
    · split at h
      · exact absurd h (by simp)
      · split at h
        · simp only [Except.ok.injEq, Prod.mk.injEq] at h
          exact absurd h.1 (by simp)
        · simp only [Except.ok.injEq, Prod.mk.injEq] at h
          exact absurd h.1 (by simp)

/-- Witness for C1 at the concrete no-project environment. -/
theorem reset_false_amended_witness :
    resetPluginApi demoResetEnv demoResetState "/w" false =
      .ok (false, demoResetState,
        [ResetEffect.removeView "v1", ResetEffect.ipcOff 7,
         ResetEffect.unWatchAll "proj1", ResetEffect.clearClientAddons,
         ResetEffect.clearSuggestions, ResetEffect.resetWidgets]) ∧
    demoResetState.instances = demoResetState.instances :=
  ⟨rfl, reset_false_amended demoResetEnv demoResetState "/w" false demoResetState _ rfl⟩

/-! ## Lemmas about the stable comparator sort -/

theorem mem_insertJs {α : Type} (c : α → α → Int) (x y : α) (l : List α) :
    y ∈ insertJs c x l ↔ y = x ∨ y ∈ l := by
  induction l with
  | nil => simp [insertJs]
  | cons z zs ih =>
    by_cases h : c z x ≤ 0 <;> simp [insertJs, h, ih] <;> tauto

theorem mem_jsSortAux {α : Type} (c : α → α → Int) (y : α) (l acc : List α) :
    y ∈ jsSortAux c acc l ↔ y ∈ acc ∨ y ∈ l := by
  induction l generalizing acc with
  | nil => simp [jsSortAux]
  | cons x xs ih =>
    simp only [jsSortAux, ih, mem_insertJs, List.mem_cons]
    tauto

theorem mem_jsSort {α : Type} (c : α → α → Int) (y : α) (l : List α) :
    y ∈ jsSort c l ↔ y ∈ l := by
  simp [jsSort, mem_jsSortAux]

theorem pairwise_insertJs {α : Type} (c : α → α → Int)
    (htot : ∀ a b, c a b ≤ 0 ∨ c b a ≤ 0)
    (htrans : ∀ a b d, c a b ≤ 0 → c b d ≤ 0 → c a d ≤ 0)
    (x : α) (l : List α) (hl : l.Pairwise (fun a b => c a b ≤ 0)) :
    (insertJs c x l).Pairwise (fun a b => c a b ≤ 0) := by
  induction l with
  | nil => simp [insertJs]
  | cons y ys ih =>
    rcases List.pairwise_cons.mp hl with ⟨hy, hys⟩
    by_cases h : c y x ≤ 0
    · simp only [insertJs, if_pos h]
      refine List.pairwise_cons.mpr ⟨?_, ih hys⟩
      intro z hz
      rcases (mem_insertJs c x z ys).mp hz with rfl | hz'
      · exact h
      · exact hy z hz'
    · simp only [insertJs, if_neg h]
      have hxy : c x y ≤ 0 := (htot x y).resolve_right h
      refine List.pairwise_cons.mpr ⟨?_, hl⟩
      intro z hz
      rcases List.mem_cons.mp hz with rfl | hz'
      · exact hxy
      · exact htrans x y z hxy (hy z hz')

theorem pairwise_jsSortAux {α : Type} (c : α → α → Int)
    (htot : ∀ a b, c a b ≤ 0 ∨ c b a ≤ 0)
    (htrans : ∀ a b d, c a b ≤ 0 → c b d ≤ 0 → c a d ≤ 0)
    (l acc : List α) (hacc : acc.Pairwise (fun a b => c a b ≤ 0)) :
    (jsSortAux c acc l).Pairwise (fun a b => c a b ≤ 0) := by
  induction l generalizing acc with
  | nil => exact hacc
  | cons x xs ih => exact ih _ (pairwise_insertJs c htot htrans x acc hacc)

theorem pairwise_jsSort {α : Type} (c : α → α → Int)
    (htot : ∀ a b, c a b ≤ 0 ∨ c b a ≤ 0)
    (htrans : ∀ a b d, c a b ≤ 0 → c b d ≤ 0 → c a d ≤ 0)
    (l : List α) :
    (jsSort c l).Pairwise (fun a b => c a b ≤ 0) :=
  pairwise_jsSortAux c htot htrans l [] (List.Pairwise.nil)

theorem filter_insertJs_not {α : Type} (c : α → α → Int) (p : α → Bool)
    (x : α) (hx : p x = false) (l : List α) :
    (insertJs c x l).filter p = l.filter p := by
  induction l with
  | nil => simp [insertJs, hx]
  | cons y ys ih =>
    by_cases h : c y x ≤ 0
    · simp only [insertJs, if_pos h, List.filter_cons, ih]
    · simp only [insertJs, if_neg h, List.filter_cons, hx]
      simp

theorem insertJs_append_last {α : Type} (c : α → α → Int) (x : α) (l : List α)
    (h : ∀ y ∈ l, c y x ≤ 0) :
    insertJs c x l = l ++ [x] := by
  induction l with
  | nil => rfl
  | cons y ys ih =>
    have hy : c y x ≤ 0 := h y (List.mem_cons_self y ys)
    simp only [insertJs, if_pos hy, List.cons_append]
    rw [ih (fun z hz => h z (List.mem_cons_of_mem y hz))]

theorem cmdCompare_le_zero_of_none (y x : Command) (hx : x.lastUsed = none) :
    cmdCompare y x ≤ 0 := by
  unfold cmdCompare
  rcases hyl : y.lastUsed with _ | ty <;> rw [hx] <;> simp

theorem filter_jsSortAux_none (l acc : List Command) :
    (jsSortAux cmdCompare acc l).filter (fun cmd => cmd.lastUsed.isNone) =
      acc.filter (fun cmd => cmd.lastUsed.isNone) ++
        l.filter (fun cmd => cmd.lastUsed.isNone) := by
  induction l generalizing acc with
  | nil => simp [jsSortAux]
  | cons x xs ih =>
    simp only [jsSortAux]
    rw [ih]
    rcases hx : x.lastUsed with _ | tx
    · rw [insertJs_append_last cmdCompare x acc
        (fun y _ => cmdCompare_le_zero_of_none y x hx)]
      simp [List.filter_append, List.filter_cons, hx]
    · rw [filter_insertJs_not cmdCompare _ x (by simp [hx]) acc]
      simp [List.filter_cons, hx]

theorem filter_jsSort_none (l : List Command) :
    (jsSort cmdCompare l).filter (fun cmd => cmd.lastUsed.isNone) =
      l.filter (fun cmd => cmd.lastUsed.isNone) := by
  simpa [jsSort] using filter_jsSortAux_none l []

theorem cmdCompare_total (a b : Command) :
    cmdCompare a b ≤ 0 ∨ cmdCompare b a ≤ 0 := by
  unfold cmdCompare
  rcases a.lastUsed with _ | ta <;> rcases b.lastUsed with _ | tb <;> simp <;> omega

theorem cmdCompare_trans (a b d : Command) :
    cmdCompare a b ≤ 0 → cmdCompare b d ≤ 0 → cmdCompare a d ≤ 0 := by
  unfold cmdCompare
  rcases a.lastUsed with _ | ta <;> rcases b.lastUsed with _ | tb <;>
    rcases d.lastUsed with _ | td <;> simp <;> omega

theorem rankLeB_of_compare (a b : Command) (h : cmdCompare a b ≤ 0) :
    rankLeB a b = true := by
  unfold cmdCompare at h
  unfold rankLeB
  rcases ha : a.lastUsed with _ | ta <;> rcases hb : b.lastUsed with _ | tb <;>
    rw [ha, hb] at h <;> simp_all <;> omega

theorem pairwiseB_eq_true {α : Type} (r : α → α → Bool) (l : List α)
    (h : l.Pairwise (fun a b => r a b = true)) : pairwiseB r l = true := by
  induction l with
  | nil => rfl
  | cons x xs ih =>
    rcases List.pairwise_cons.mp h with ⟨hx, hxs⟩
    simp only [pairwiseB, Bool.and_eq_true, List.all_eq_true]
    exact ⟨fun a ha => hx a ha, ih hxs⟩

/-! ## Invariants of the incrementally built registry state -/

/-- The registry state obtained by adding `cmds` on top of `st`. -/
def buildFrom (st : CmdState) (cmds : List Command) : CmdState :=
  cmds.foldl addCommand st

theorem indexes_buildFrom (cmds : List Command) (st : CmdState) (t : CommandType)
    (d : IndexDoc) (hd : d ∈ (buildFrom st cmds).indexes t) :
    d ∈ st.indexes t ∨
      ∃ cmd ∈ cmds, cmd.hidden = false ∧ cmd.type = t ∧
        d = { ref := cmd.id, label := cmd.label } := by
  induction cmds generalizing st with
  | nil => exact Or.inl hd
  | cons cmd cs ih =>
    rcases ih (addCommand st cmd) hd with h | ⟨c', hc', hh, ht, hd'⟩
    · by_cases hhid : cmd.hidden
      · exact Or.inl (by simpa [addCommand, hhid] using h)
      · by_cases hty : t = cmd.type
        · have h' : d ∈ st.indexes t ++ [{ ref := cmd.id, label := cmd.label }] := by
            simpa [addCommand, hhid, hty] using h
          rcases List.mem_append.mp h' with h0 | h0
          · exact Or.inl h0
          · refine Or.inr ⟨cmd, List.mem_cons_self cmd cs, ?_, hty.symm, ?_⟩
            · simpa using hhid
            · simpa using h0
        · exact Or.inl (by simpa [addCommand, hhid, hty] using h)
    · exact Or.inr ⟨c', List.mem_cons_of_mem cmd hc', hh, ht, hd'⟩

theorem lookupAssoc_setAssoc_ne {α : Type} (l : List (String × α)) (k k' : String)
    (v : α) (h : k' ≠ k) :
    lookupAssoc (setAssoc l k v) k' = lookupAssoc l k' := by
  have hne : ¬(k = k') := fun he => h he.symm
  induction l with
  | nil => simp [setAssoc, lookupAssoc, hne]
  | cons p rest ih =>
    obtain ⟨k₀, v₀⟩ := p
    by_cases h0 : k₀ = k
    · subst h0
      simp [setAssoc, lookupAssoc, hne]
    · simp [setAssoc, lookupAssoc, h0, ih]

theorem commandsMap_buildFrom_stable (cmds : List Command) (st : CmdState) (k : String) :
    (∀ c ∈ cmds, c.id ≠ k) →
    lookupAssoc (buildFrom st cmds).commandsMap k = lookupAssoc st.commandsMap k := by
  induction cmds generalizing st with
  | nil => exact fun _ => rfl
  | cons c cs ih =>
    intro hk
    have step : lookupAssoc (buildFrom (addCommand st c) cs).commandsMap k =
        lookupAssoc (addCommand st c).commandsMap k :=
      ih (addCommand st c) (fun c' hc' => hk c' (List.mem_cons_of_mem c hc'))
    calc lookupAssoc (buildFrom st (c :: cs)).commandsMap k
        = lookupAssoc (addCommand st c).commandsMap k := step
      _ = lookupAssoc st.commandsMap k :=
          lookupAssoc_setAssoc_ne st.commandsMap c.id k c
            (Ne.symm (hk c (List.mem_cons_self c cs)))

theorem commandsMap_buildFrom_mem (cmds : List Command) (st : CmdState) (c : Command) :
    c ∈ cmds → (cmds.map (fun x => x.id)).Nodup →
    lookupAssoc (buildFrom st cmds).commandsMap c.id = some c := by
  induction cmds generalizing st with
  | nil => exact fun hc _ => absurd hc (List.not_mem_nil c)
  | cons x xs ih =>
    intro hc hnd
    rw [List.map_cons, List.nodup_cons] at hnd
    rcases List.mem_cons.mp hc with rfl | hc'
    · have hne : ∀ c' ∈ xs, c'.id ≠ c.id := by
        intro c' hc' heq
        exact hnd.1 (heq ▸ List.mem_map_of_mem (fun y => y.id) hc')
      have step : lookupAssoc (buildFrom (addCommand st c) xs).commandsMap c.id =
          lookupAssoc (addCommand st c).commandsMap c.id :=
        commandsMap_buildFrom_stable xs (addCommand st c) c.id hne
      calc lookupAssoc (buildFrom st (c :: xs)).commandsMap c.id
          = lookupAssoc (addCommand st c).commandsMap c.id := step
        _ = some c := lookupAssoc_setAssoc st.commandsMap c.id c
    · exact ih (addCommand st x) hc' hnd.2

/-! ## Properties of the recent-command list -/

theorem getRecentCommands_length (cmds : List Command) (ty : Option CommandType) :
    (getRecentCommands cmds ty).length ≤ 20 := by
  simp only [getRecentCommands]
  exact List.length_take_le 20 (jsSort cmdCompare (recentFilter cmds ty))

theorem getRecentCommands_subset (cmds : List Command) (ty : Option CommandType)
    (c : Command) (hc : c ∈ getRecentCommands cmds ty) : c ∈ recentFilter cmds ty := by
  have h1 : c ∈ jsSort cmdCompare (recentFilter cmds ty) :=
    List.take_subset 20 _ hc
  exact (mem_jsSort cmdCompare c _).mp h1

theorem getRecentCommands_not_hidden (cmds : List Command) (ty : Option CommandType) :
    (getRecentCommands cmds ty).all (fun c => !c.hidden) = true := by
  rw [List.all_eq_true]
  intro c hc
  have hmem := getRecentCommands_subset cmds ty c hc
  cases ty with
  | none =>
    have h2 := (List.mem_filter.mp hmem).2
    simp only [Bool.and_eq_true] at h2
    exact h2.1
  | some t =>
    have h2 := (List.mem_filter.mp hmem).2
    simp only [Bool.and_eq_true] at h2
    exact h2.1

theorem getRecentCommands_no_help (cmds : List Command) :
    (getRecentCommands cmds none).all (fun c => !(c.type == CommandType.help)) = true := by
  rw [List.all_eq_true]
  intro c hc
  have hmem := getRecentCommands_subset cmds none c hc
  have h2 := (List.mem_filter.mp hmem).2
  simp only [Bool.and_eq_true] at h2
  exact h2.2

theorem getRecentCommands_sorted (cmds : List Command) (ty : Option CommandType) :
    pairwiseB rankLeB (getRecentCommands cmds ty) = true := by
  apply pairwiseB_eq_true
  have hp := pairwise_jsSort cmdCompare cmdCompare_total cmdCompare_trans
    (recentFilter cmds ty)
  have hp' : (jsSort cmdCompare (recentFilter cmds ty)).Pairwise
      (fun a b => rankLeB a b = true) :=
    hp.imp (fun h => rankLeB_of_compare _ _ h)
  exact hp'.sublist (List.take_sublist 20 _)

theorem getRecentCommands_stable (cmds : List Command) (ty : Option CommandType) :
    (getRecentCommands cmds ty).filter (fun c => c.lastUsed.isNone) <+:
      (recentFilter cmds ty).filter (fun c => c.lastUsed.isNone) := by
  have h1 : getRecentCommands cmds ty <+: jsSort cmdCompare (recentFilter cmds ty) :=
    List.take_prefix 20 _
  have h2 := h1.filter (fun c => c.lastUsed.isNone)
  rwa [filter_jsSort_none] at h2

/-! ## C5 / C6: the search entry point -/

/-- The query's post-prefix part is empty: either the query itself is
empty, or it is exactly one recognized prefix symbol. -/
def postPrefixEmpty (text : List Char) : Prop :=
  text = [] ∨ ∃ ch t, text = [ch] ∧ typeWords ch = some t

/-- Command `a` of the spec's recency example (`lastUsed = T1`). -/
def exCmdA : Command :=
  { id := "a", type := CommandType.action, label := "A", lastUsed := some 100 }

/-- Command `b` of the spec's recency example (`lastUsed = T2 > T1`). -/
def exCmdB : Command :=
  { id := "b", type := CommandType.action, label := "B", lastUsed := some 200 }

/-- Command `c` of the spec's recency example (no `lastUsed`). -/
def exCmdC : Command :=
  { id := "c", type := CommandType.action, label := "C" }

/-- C5: for every registry state, searching with an empty post-prefix
query returns the recent-command list: at most 20 commands, never a
hidden one, never a help-type command in the unscoped case, ordered so
that timestamps descend and any timestamped command ranks above any
untimestamped one, with the relative order of untimestamped commands
unchanged (the filtered prefix property); on commands a (T1), b (T2>T1),
c (none) the order is [b, a, c]. -/
theorem recent_list_spec (matchQ : List Char → String → Bool) (st : CmdState)
    (text : List Char) (h : postPrefixEmpty text) :
    searchCommands matchQ st text =
      (getRecentCommands st.commands (getSeachType text)).map some ∧
    (getRecentCommands st.commands (getSeachType text)).length ≤ 20 ∧
    (getRecentCommands st.commands (getSeachType text)).all (fun c => !c.hidden) = true ∧
    (getSeachType text = none →
      (getRecentCommands st.commands (getSeachType text)).all
        (fun c => !(c.type == CommandType.help)) = true) ∧
    pairwiseB rankLeB (getRecentCommands st.commands (getSeachType text)) = true ∧
    ((getRecentCommands st.commands (getSeachType text)).filter
        (fun c => c.lastUsed.isNone) <+:
      (recentFilter st.commands (getSeachType text)).filter
        (fun c => c.lastUsed.isNone)) ∧
    getRecentCommands [exCmdA, exCmdB, exCmdC] none = [exCmdB, exCmdA, exCmdC] := by
  refine ⟨?_, getRecentCommands_length _ _, getRecentCommands_not_hidden _ _,
    ?_, getRecentCommands_sorted _ _, getRecentCommands_stable _ _, by decide⟩
  · rcases h with rfl | ⟨ch, t, rfl, hch⟩
    · rfl
    · have hg : getSeachType [ch] = some t := hch
      simp [searchCommands, hg]
  · intro hty
    rw [hty]
    exact getRecentCommands_no_help _

/-- A concrete exact-label match predicate for witnesses. -/
def exMatch : List Char → String → Bool := fun q l => l.data == q

/-- Witness for C5 at the empty query over the three example commands. -/
theorem recent_list_spec_witness :
    postPrefixEmpty [] ∧
    searchCommands exMatch (buildState [exCmdA, exCmdB, exCmdC]) [] =
      (getRecentCommands (buildState [exCmdA, exCmdB, exCmdC]).commands
        (getSeachType [])).map some ∧
    getRecentCommands [exCmdA, exCmdB, exCmdC] none = [exCmdB, exCmdA, exCmdC] := by
  have happ := recent_list_spec exMatch (buildState [exCmdA, exCmdB, exCmdC]) []
    (Or.inl rfl)
  exact ⟨Or.inl rfl, happ.1, happ.2.2.2.2.2.2⟩

/-- A visible package command labelled "foo". -/
def exPkgCmd : Command :=
  { id := "p1", type := CommandType.package, label := "foo" }

/-- C6: a single leading recognized symbol selects the type-scoped index
and is stripped before lookup, so `search("&foo")` only ever returns
non-hidden commands of type package whose label matches `foo`; a query
with no prefix or an unrecognized prefix is searched against the global
index, and a bare `>` returns the action-type recent list. -/
theorem search_scoped_spec (cmds : List Command) (matchQ : List Char → String → Bool)
    (q : List Char) (hq : q ≠ [])
    (hnd : (cmds.map (fun c => c.id)).Nodup) :
    ((searchCommands matchQ (buildState cmds) ('&' :: q)).all
      (fun x =>
        match x with
        | some c => (c.type == CommandType.package) && !c.hidden && matchQ q c.label
        | none => false) = true) ∧
    (∀ text : List Char, getSeachType text = none → text ≠ [] →
      searchCommands matchQ (buildState cmds) text =
        (idxSearch matchQ text (buildState cmds).globalIndex).map
          (fun d => lookupAssoc (buildState cmds).commandsMap d.ref)) ∧
    (searchCommands matchQ (buildState cmds) ['>'] =
      (getRecentCommands (buildState cmds).commands (some CommandType.action)).map some) := by
  refine ⟨?_, ?_, rfl⟩
  · have hpath : searchCommands matchQ (buildState cmds) ('&' :: q) =
        (idxSearch matchQ q ((buildState cmds).indexes CommandType.package)).map
          (fun d => lookupAssoc (buildState cmds).commandsMap d.ref) := by
      cases q with
      | nil => exact absurd rfl hq
      | cons ch rest => rfl
    rw [hpath, List.all_eq_true]
    intro x hx
    rcases List.mem_map.mp hx with ⟨d, hd, rfl⟩
    rcases List.mem_filter.mp hd with ⟨hdidx, hdmatch⟩
    rcases indexes_buildFrom cmds initCmdState CommandType.package d hdidx with
      h0 | ⟨c, hc, hh, ht, rfl⟩
    · cases h0
    · have hmap : lookupAssoc (buildState cmds).commandsMap c.id = some c :=
        commandsMap_buildFrom_mem cmds initCmdState c hc hnd
      dsimp only
      rw [hmap]
      simp only [ht, hh, beq_self_eq_true, Bool.not_false, Bool.true_and]
      exact hdmatch
  · intro t2 hty hne
    cases t2 with
    | nil => exact absurd rfl hne
    | cons ch rest =>
      simp only [searchCommands, hty]
      rfl

/-- Witness for C6 at a one-command registry and an exact-match query. -/
theorem search_scoped_spec_witness :
    ("foo".data ≠ ([] : List Char)) ∧
    (([exPkgCmd].map (fun c => c.id)).Nodup) ∧
    ((searchCommands exMatch (buildState [exPkgCmd]) ('&' :: "foo".data)).all
      (fun x =>
        match x with
        | some c => (c.type == CommandType.package) && !c.hidden && exMatch "foo".data c.label
        | none => false) = true) := by
  refine ⟨by decide, by decide, ?_⟩
  exact (search_scoped_spec [exPkgCmd] exMatch "foo".data (by decide) (by decide)).1

end GuijsSpec
